import Mathlib

/-!
Verification of the CaamañoPOS demo (point-of-sale with terminal-integration
boundary).  The cart-editing layer is embedded from
`src/frontend/src/App.jsx`; the Order/Payment Service, Terminal Gateway and
stores are not present in the repository sources (only the frontend caller
and the README are), so they are modelled from the specification, as marked
on each definition.
-/

namespace Pos

/-- A catalog menu item as served by `GET items` and rendered in `App.jsx`:
`{id, name, category, price, description}`.  Prices are exact decimals,
modelled as rationals. -/
structure MenuItem where
  id : Nat
  name : String
  category : String
  price : ℚ
  description : String
  deriving DecidableEq

/-- A cart line item as built by `addToOrder` in `App.jsx`:
`{name, qty, price}`.  Quantities are integers (the cart-editing layer may
be asked for any number). -/
structure LineItem where
  name : String
  qty : Int
  price : ℚ
  deriving DecidableEq

/-- `App.jsx` line 14: `selectedItems.reduce((s,i)=> s + i.qty*i.price, 0)`,
in exact arithmetic. -/
def subtotal (items : List LineItem) : ℚ :=
  items.foldl (fun s i => s + (i.qty : ℚ) * i.price) 0

/-- `updateItemQuantity` from `App.jsx`: a non-positive quantity removes the
line item, otherwise the quantity of every line with that name is set. -/
def updateItemQuantity (cart : List LineItem) (itemName : String) (newQty : Int) :
    List LineItem :=
  if newQty ≤ 0 then
    cart.filter fun item => !(item.name == itemName)
  else
    cart.map fun item =>
      if item.name == itemName then { item with qty := newQty } else item

/-- `removeFromOrder` from `App.jsx`: filter the named line out. -/
def removeFromOrder (cart : List LineItem) (itemName : String) : List LineItem :=
  cart.filter fun item => !(item.name == itemName)

/-- `addToOrder` from `App.jsx`: if a line with the menu item's name exists,
increment its quantity, otherwise append a fresh `{name, qty: 1, price}`
record copied by value from the menu item. -/
def addToOrder (cart : List LineItem) (menuItem : MenuItem) : List LineItem :=
  match cart.find? (fun item => item.name == menuItem.name) with
  | some existingItem => updateItemQuantity cart menuItem.name (existingItem.qty + 1)
  | none => cart ++ [{ name := menuItem.name, qty := 1, price := menuItem.price }]

/-- One cart-editing operation of the UI layer in `App.jsx`. -/
inductive CartOp where
  | add (menuItem : MenuItem)
  | update (itemName : String) (newQty : Int)
  | remove (itemName : String)
  deriving DecidableEq

/-- Apply one cart-editing operation. -/
def applyCartOp (cart : List LineItem) : CartOp → List LineItem
  | .add m => addToOrder cart m
  | .update n q => updateItemQuantity cart n q
  | .remove n => removeFromOrder cart n

/-- Run a sequence of cart-editing operations from the empty cart
(`useState([])` in `App.jsx`). -/
def runCartOps (ops : List CartOp) : List LineItem :=
  ops.foldl applyCartOp []

/-- The client-held UI state relevant to catalog/cart interaction:
the menu catalog (`menuItems`) and the cart (`selectedItems`). -/
structure ShopState where
  catalog : List MenuItem
  cart : List LineItem
  deriving DecidableEq

/-- A later catalog price change: every catalog entry with the given name
gets the new price.  The cart is not an input of the update. -/
def setCatalogPrice (st : ShopState) (itemName : String) (newPrice : ℚ) : ShopState :=
  { st with
    catalog := st.catalog.map fun m =>
      if m.name == itemName then { m with price := newPrice } else m }

/-- Transaction status enum: `{approved, declined, error}` (spec §3). -/
inductive TxStatus where
  | approved
  | declined
  | error
  deriving DecidableEq, BEq

/-- Modelled from the spec: the `Order` record of the missing backend
(`{id, table_label, line_items}`; the wall-clock `created_at` timestamp is
outside the model). -/
structure Order where
  id : Nat
  table_label : String
  line_items : List LineItem
  deriving DecidableEq

/-- Modelled from the spec: the `Transaction` record persisted by the missing
backend: `{order_id, status, auth_code, masked_card, terminal_ref,
amount_charged, tip}` (`created_at` outside the model).  By construction it
has no PAN, CVV or expiry field. -/
structure Transaction where
  order_id : Nat
  status : TxStatus
  auth_code : String
  masked_card : String
  terminal_ref : String
  amount_charged : ℚ
  tip : ℚ
  deriving DecidableEq

/-- Modelled from the spec: the error taxonomy of the missing backend service
(§7); `GatewayError`/decline are recorded transactions, not thrown errors. -/
inductive PosError where
  | ValidationError
  | NotFoundError
  deriving DecidableEq

/-- Modelled from the spec: the raw response of the Terminal Gateway before
the allow-listing boundary.  Besides the four contract fields it may carry
arbitrary extra key/value data (`extra`), which the boundary must discard. -/
structure RawGatewayResponse where
  status : String
  auth_code : String
  masked_card : String
  terminal_ref : String
  extra : List (String × String)
  deriving DecidableEq

/-- Modelled from the spec: the input of `POST charge` — exactly
`{order_id, tip}` and nothing else (§6). -/
structure ChargeRequest where
  order_id : Nat
  tip : ℚ
  deriving DecidableEq

/-- Modelled from the spec: the output shape of `POST charge` — exactly
`{status, auth_code, masked_card, terminal_ref, amount_charged, tip}` (§6). -/
structure ChargeResponse where
  status : TxStatus
  auth_code : String
  masked_card : String
  terminal_ref : String
  amount_charged : ℚ
  tip : ℚ
  deriving DecidableEq

/-- Modelled from the spec: the persistent state of the missing backend —
the Order Store, the append-only Transaction Store, the id counter, and a
log of every `{amount, reference}` message sent to the Terminal Gateway
(newest first), recording that the only data crossing the terminal boundary
is an amount and an opaque reference. -/
structure PosState where
  orders : List Order
  txns : List Transaction
  nextId : Nat
  gatewayLog : List (ℚ × String)
  deriving DecidableEq

/-- Modelled from the spec: the initial backend state — empty stores. -/
def initState : PosState :=
  { orders := [], txns := [], nextId := 0, gatewayLog := [] }

/-- Modelled from the spec: `create_order` input validation — every item must
have a positive integer quantity and a non-negative unit price (§4.1). -/
def validItems (items : List LineItem) : Bool :=
  items.all fun i => decide (0 < i.qty) && decide (0 ≤ i.price)

/-- Modelled from the spec: `create_order(table_label, cart_items)` of the
missing backend service.  Fails with `ValidationError` on an empty cart, an
invalid item or an empty table label, persisting nothing; otherwise copies
the cart by value into a new `Order` under a fresh id and persists it. -/
def createOrder (st : PosState) (table_label : String) (cart_items : List LineItem) :
    Except PosError Order × PosState :=
  if cart_items.isEmpty || !(validItems cart_items) || table_label == "" then
    (.error .ValidationError, st)
  else
    let o : Order := { id := st.nextId, table_label := table_label, line_items := cart_items }
    (.ok o, { st with orders := o :: st.orders, nextId := st.nextId + 1 })

/-- Modelled from the spec: translation of the gateway's status word into the
transaction status enum; anything unrecognized is defensive `error`. -/
def parseStatus (s : String) : TxStatus :=
  if s == "approved" then .approved
  else if s == "declined" then .declined
  else .error

/-- Modelled from the spec: boundary enforcement of `masked_card` — keep only
the last 4 characters of whatever the gateway sent, left-padded with `*` so
the stored field is always exactly 4 characters (last-4-only, not trusted
from the gateway). -/
def last4 (s : String) : String :=
  let cs := s.toList
  let tail := cs.drop (cs.length - 4)
  String.mk (List.replicate (4 - tail.length) '*' ++ tail)

/-- Modelled from the spec: the allow-listing boundary (§4.1 step 4) that
turns a raw gateway response into a `Transaction`: copy only status,
auth_code, masked last-4 and terminal_ref; everything else (the `extra`
data) is discarded, never stored. -/
def translateResponse (oid : Nat) (amount tip : ℚ) (raw : RawGatewayResponse) : Transaction :=
  { order_id := oid
    status := parseStatus raw.status
    auth_code := raw.auth_code
    masked_card := last4 raw.masked_card
    terminal_ref := raw.terminal_ref
    amount_charged := amount
    tip := tip }

/-- Modelled from the spec: the idempotency reference for a charge attempt,
combining order id and attempt count (§4.1 step 3). -/
def mkReference (oid attempt : Nat) : String :=
  "order-" ++ Nat.repr oid ++ "-attempt-" ++ Nat.repr attempt

/-- Modelled from the spec: `charge(order_id, tip)` of the missing backend
service.  The Terminal Gateway's behaviour for this attempt is passed as an
oracle `gwResp` (`none` = timeout/connection failure).  Validation precedes
lookup; lookup precedes any gateway call; every gateway call is logged as
the `{amount, reference}` pair that crossed the boundary; every completed
attempt appends exactly one transaction (status `error` with a synthetic
terminal_ref on gateway failure). -/
def charge (st : PosState) (order_id : Nat) (tip : ℚ)
    (gwResp : Option RawGatewayResponse) : Except PosError Transaction × PosState :=
  if tip < 0 then (.error .ValidationError, st)
  else
    match st.orders.find? (fun o => o.id == order_id) with
    | none => (.error .NotFoundError, st)
    | some o =>
      let amount := subtotal o.line_items + tip
      let attempt := (st.txns.filter (fun t => t.order_id == order_id)).length
      let reference := mkReference order_id attempt
      let st1 : PosState := { st with gatewayLog := (amount, reference) :: st.gatewayLog }
      match gwResp with
      | none =>
        let t : Transaction :=
          { order_id := order_id, status := .error, auth_code := ""
            masked_card := "xxxx", terminal_ref := "SYNTH-REF"
            amount_charged := amount, tip := tip }
        (.ok t, { st1 with txns := t :: st1.txns })
      | some raw =>
        let t := translateResponse order_id amount tip raw
        (.ok t, { st1 with txns := t :: st1.txns })

/-- Modelled from the spec: `POST charge` consumes exactly a
`ChargeRequest = {order_id, tip}`. -/
def chargeViaRequest (st : PosState) (req : ChargeRequest)
    (gwResp : Option RawGatewayResponse) : Except PosError Transaction × PosState :=
  charge st req.order_id req.tip gwResp

/-- Modelled from the spec: the externally returned view of a transaction —
exactly the six fields of §6, nothing else. -/
def toResponse (t : Transaction) : ChargeResponse :=
  { status := t.status, auth_code := t.auth_code, masked_card := t.masked_card
    terminal_ref := t.terminal_ref, amount_charged := t.amount_charged, tip := t.tip }

/-- Modelled from the spec: the derived payment state of an order — `paid`
iff its transaction history contains an approved transaction (§4.1 state
machine; not stored as a separate field). -/
def paid (st : PosState) (oid : Nat) : Bool :=
  st.txns.any fun t => t.order_id == oid && t.status == TxStatus.approved

/-- Longest run of consecutive decimal digits: worker over the character
list, carrying the current run and the best run seen. -/
def maxDigitRunAux : List Char → Nat → Nat → Nat
  | [], cur, best => max cur best
  | c :: cs, cur, best =>
    if c.isDigit then maxDigitRunAux cs (cur + 1) best
    else maxDigitRunAux cs 0 (max cur best)

/-- Longest run of consecutive decimal digits in a string. -/
def maxDigitRun (s : String) : Nat :=
  maxDigitRunAux s.toList 0 0

/-- A string contains a 13-or-more digit sequence (the shape of a full PAN,
which is 13–19 digits). -/
def hasPanRun (s : String) : Bool :=
  decide (13 ≤ maxDigitRun s)

/-- Modelled from the spec: the Terminal Gateway contract (§4.2) is PCI-safe —
the opaque strings it returns (auth code and terminal reference) never carry
a full PAN-shaped digit sequence.  The masked card field is NOT trusted; the
boundary re-masks it. -/
def gwSafe (raw : RawGatewayResponse) : Prop :=
  hasPanRun raw.auth_code = false ∧ hasPanRun raw.terminal_ref = false

/-- Modelled from the spec: the backend states reachable from the initial
state by `create_order` and `charge` calls against a PCI-safe gateway. -/
inductive Reachable : PosState → Prop where
  | init : Reachable initState
  | createStep (st : PosState) (table : String) (items : List LineItem) :
      Reachable st → Reachable (createOrder st table items).2
  | chargeStep (st : PosState) (oid : Nat) (tip : ℚ) (gwResp : Option RawGatewayResponse) :
      Reachable st → (∀ raw, gwResp = some raw → gwSafe raw) →
      Reachable (charge st oid tip gwResp).2

/-- Concrete cart line used in the spec's worked scenario. -/
def coffeeLine : LineItem := { name := "Coffee", qty := 2, price := 1500 }

/-- Concrete catalog entry used in witnesses. -/
def coffeeMenu : MenuItem :=
  { id := 1, name := "Coffee", category := "Drinks", price := 1500, description := "hot" }

/-- Backend state after creating the scenario order (order id 0, one line:
Coffee ×2 at 1500). -/
def stScenario : PosState := (createOrder initState "Mesa 1" [coffeeLine]).2

/-- A PCI-safe approval response used in witnesses. -/
def rawApprove : RawGatewayResponse :=
  { status := "approved", auth_code := "AUTH-OK", masked_card := "4242"
    terminal_ref := "TRM-A", extra := [] }

/-- A PCI-safe decline response used in witnesses. -/
def rawDecline : RawGatewayResponse :=
  { status := "declined", auth_code := "", masked_card := "4242"
    terminal_ref := "TRM-D", extra := [] }


/-! ## Helper lemmas -/

theorem foldl_add_map_sum (f : LineItem → ℚ) :
    ∀ (l : List LineItem) (a : ℚ), l.foldl (fun s i => s + f i) a = a + (l.map f).sum := by
  intro l
  induction l with
  | nil => simp
  | cons x xs ih => intro a; simp only [List.foldl_cons, List.map_cons, List.sum_cons, ih, add_assoc]

theorem subtotal_eq_sum (items : List LineItem) :
    subtotal items = (items.map fun i => (i.qty : ℚ) * i.price).sum := by
  unfold subtotal
  rw [foldl_add_map_sum (fun i => (i.qty : ℚ) * i.price) items 0, zero_add]

/-! ## Claims -/

/-- C2: for every valid cart (positive quantities, non-negative prices) the
computed subtotal is exactly the sum of `qty * price` over the line items,
in exact (rational) arithmetic; in particular the scenario cart
`[{name:"Coffee", qty:2, price:1500}]` has subtotal `3000`. -/
theorem subtotal_exact :
    (∀ cart, validItems cart = true →
      subtotal cart = (cart.map fun i => (i.qty : ℚ) * i.price).sum) ∧
    subtotal [coffeeLine] = 3000 := by
  constructor
  · intro cart _
    exact subtotal_eq_sum cart
  · norm_num [subtotal, coffeeLine]

/-- Witness for C2 at the concrete scenario cart. -/
theorem subtotal_exact_witness :
    subtotal [coffeeLine] = ([coffeeLine].map fun i => (i.qty : ℚ) * i.price).sum :=
  subtotal_exact.1 [coffeeLine] (by decide)

/-- C3: `charge` consumes exactly a `{order_id, tip}` request, and its result
(both the transaction value and the updated state) depends only on the four
allow-listed gateway fields — any extra data the gateway returns is
discarded, so PAN/CVV/expiry can never flow into a `Transaction`, whose type
moreover has no such field. -/
theorem charge_allowlist_shape :
    ∀ (st : PosState) (req : ChargeRequest) (s a m tr : String)
      (extra1 extra2 : List (String × String)),
      chargeViaRequest st req (some ⟨s, a, m, tr, extra1⟩) =
        chargeViaRequest st req (some ⟨s, a, m, tr, extra2⟩) := by
  intro st req s a m tr extra1 extra2
  rfl

/-- C4: `create_order` on an empty cart fails with `ValidationError` and the
state (in particular the Order Store) is completely unchanged. -/
theorem createOrder_empty_cart_rejected :
    ∀ (st : PosState) (table : String),
      createOrder st table [] = (.error .ValidationError, st) := by
  intro st table
  rfl

/-- C5: `charge` on an order id that references no existing order fails with
`NotFoundError` and the state is unchanged — no transaction is written and
no gateway call is logged. -/
theorem charge_unknown_order_rejected :
    ∀ (st : PosState) (oid : Nat) (tip : ℚ) (gwResp : Option RawGatewayResponse),
      0 ≤ tip → st.orders.find? (fun o => o.id == oid) = none →
      charge st oid tip gwResp = (.error .NotFoundError, st) := by
  intro st oid tip gwResp htip hfind
  unfold charge
  rw [if_neg (not_lt.mpr htip), hfind]

/-- Witness for C5: charging order 0 against the empty initial state. -/
theorem charge_unknown_order_rejected_witness :
    charge initState 0 0 none = (.error .NotFoundError, initState) :=
  charge_unknown_order_rejected initState 0 0 none le_rfl rfl

/-- C7: `charge` with a negative tip is rejected with `ValidationError`
before any persistence and before any gateway call: the state is unchanged. -/
theorem negative_tip_rejected :
    ∀ (st : PosState) (oid : Nat) (tip : ℚ) (gwResp : Option RawGatewayResponse),
      tip < 0 → charge st oid tip gwResp = (.error .ValidationError, st) := by
  intro st oid tip gwResp htip
  unfold charge
  rw [if_pos htip]

/-- Witness for C7: tip `-1` on the scenario state. -/
theorem negative_tip_rejected_witness :
    charge stScenario 0 (-1) (some rawApprove) = (.error .ValidationError, stScenario) :=
  negative_tip_rejected stScenario 0 (-1) (some rawApprove) (by norm_num)

/-! ## Cart-editing invariants (C8, C9, C10) -/

theorem qty_mem_updateItemQuantity {cart : List LineItem} {n : String} {q : Int}
    (h : ∀ i ∈ cart, 1 ≤ i.qty) : ∀ i ∈ updateItemQuantity cart n q, 1 ≤ i.qty := by
  intro i hi
  unfold updateItemQuantity at hi
  split at hi
  · exact h i (List.mem_of_mem_filter hi)
  · rename_i hq
    obtain ⟨j, hj, rfl⟩ := List.mem_map.mp hi
    by_cases hn : (j.name == n) = true
    · simp only [hn, if_true]
      omega
    · simp only [hn, if_false]
      exact h j hj

theorem qty_mem_addToOrder {cart : List LineItem} {m : MenuItem}
    (h : ∀ i ∈ cart, 1 ≤ i.qty) : ∀ i ∈ addToOrder cart m, 1 ≤ i.qty := by
  intro i hi
  unfold addToOrder at hi
  split at hi
  · exact qty_mem_updateItemQuantity h i hi
  · rcases List.mem_append.mp hi with h1 | h1
    · exact h i h1
    · simp only [List.mem_singleton] at h1
      subst h1
      exact le_refl 1

theorem qty_runCartOps_aux :
    ∀ (ops : List CartOp) (cart : List LineItem),
      (∀ i ∈ cart, 1 ≤ i.qty) → ∀ i ∈ ops.foldl applyCartOp cart, 1 ≤ i.qty := by
  intro ops
  induction ops with
  | nil => intro cart h; simpa using h
  | cons op ops ih =>
    intro cart h
    simp only [List.foldl_cons]
    apply ih
    cases op with
    | add m => exact qty_mem_addToOrder h
    | update n q => exact qty_mem_updateItemQuantity h
    | remove n => exact fun i hi => h i (List.mem_of_mem_filter hi)

/-- C8: after any sequence of cart-editing operations from the empty cart,
every line item has quantity at least 1; moreover setting a quantity to zero
or below at the cart-editing layer is exactly removal of that line. -/
theorem cart_quantity_positive :
    (∀ (ops : List CartOp), ∀ i ∈ runCartOps ops, 1 ≤ i.qty) ∧
    (∀ (cart : List LineItem) (n : String) (q : Int), q ≤ 0 →
      updateItemQuantity cart n q = removeFromOrder cart n) := by
  constructor
  · intro ops i hi
    exact qty_runCartOps_aux ops [] (by simp) i hi
  · intro cart n q hq
    unfold updateItemQuantity removeFromOrder
    rw [if_pos hq]

/-- Witness for C8: one `add` of the Coffee menu item, and removal via a
zero quantity. -/
theorem cart_quantity_positive_witness :
    (1 : Int) ≤ (LineItem.mk "Coffee" 1 1500).qty ∧
    updateItemQuantity [coffeeLine] "Coffee" 0 = removeFromOrder [coffeeLine] "Coffee" := by
  constructor
  · exact cart_quantity_positive.1 [CartOp.add coffeeMenu] (LineItem.mk "Coffee" 1 1500)
      (by simp [runCartOps, applyCartOp, addToOrder, coffeeMenu])
  · exact cart_quantity_positive.2 [coffeeLine] "Coffee" 0 le_rfl

theorem namesNodup_updateItemQuantity {cart : List LineItem}
    (h : (cart.map fun i => i.name).Nodup) (n : String) (q : Int) :
    ((updateItemQuantity cart n q).map fun i => i.name).Nodup := by
  unfold updateItemQuantity
  split
  · exact h.sublist (List.Sublist.map _ (List.filter_sublist cart))
  · have heq : ((cart.map fun i =>
        if i.name == n then { i with qty := q } else i).map fun i => i.name) =
        cart.map fun i => i.name := by
      rw [List.map_map]
      refine List.map_congr_left ?_
      intro i _
      simp only [Function.comp_apply]
      split <;> rfl
    rw [heq]
    exact h

theorem namesNodup_addToOrder {cart : List LineItem}
    (h : (cart.map fun i => i.name).Nodup) (m : MenuItem) :
    ((addToOrder cart m).map fun i => i.name).Nodup := by
  unfold addToOrder
  split
  · exact namesNodup_updateItemQuantity h m.name _
  · rename_i hfind
    rw [List.map_append]
    rw [List.nodup_append]
    refine ⟨h, by simp, ?_⟩
    intro a ha hb
    simp only [List.map_cons, List.map_nil, List.mem_singleton] at hb
    subst hb
    obtain ⟨i, hi, hieq⟩ := List.mem_map.mp ha
    have hnone := List.find?_eq_none.mp hfind i hi
    simp only [beq_iff_eq] at hnone
    exact hnone hieq

theorem namesNodup_runCartOps_aux :
    ∀ (ops : List CartOp) (cart : List LineItem),
      ((cart.map fun i => i.name).Nodup) →
      ((ops.foldl applyCartOp cart).map fun i => i.name).Nodup := by
  intro ops
  induction ops with
  | nil => intro cart h; simpa using h
  | cons op ops ih =>
    intro cart h
    simp only [List.foldl_cons]
    apply ih
    cases op with
    | add m => exact namesNodup_addToOrder h m
    | update n q => exact namesNodup_updateItemQuantity h n q
    | remove n => exact h.sublist (List.Sublist.map _ (List.filter_sublist cart))

/-- C10: after any sequence of cart-editing operations from the empty cart,
no two line items share a name; adding a menu item whose name is already in
the cart increments that line's quantity instead of appending a duplicate. -/
theorem cart_names_unique :
    (∀ ops : List CartOp, ((runCartOps ops).map fun i => i.name).Nodup) ∧
    (∀ (cart : List LineItem) (m : MenuItem) (e : LineItem),
      cart.find? (fun i => i.name == m.name) = some e →
      addToOrder cart m = updateItemQuantity cart m.name (e.qty + 1)) := by
  constructor
  · intro ops
    exact namesNodup_runCartOps_aux ops [] (by simp)
  · intro cart m e hfind
    unfold addToOrder
    rw [hfind]

/-- Witness for C10: adding Coffee twice yields a single line (no duplicate
names), and the second add is a quantity increment. -/
theorem cart_names_unique_witness :
    ((runCartOps [CartOp.add coffeeMenu, CartOp.add coffeeMenu]).map fun i => i.name).Nodup ∧
    addToOrder [coffeeLine] coffeeMenu = updateItemQuantity [coffeeLine] "Coffee" 3 := by
  constructor
  · exact cart_names_unique.1 [CartOp.add coffeeMenu, CartOp.add coffeeMenu]
  · have h := cart_names_unique.2 [coffeeLine] coffeeMenu coffeeLine
      (by simp [coffeeLine, coffeeMenu])
    simpa [coffeeMenu, coffeeLine] using h

/-- C9: line items are copied by value — a later catalog price change never
alters the cart; when the name is new, `addToOrder` appends a fresh record
built from the menu item's name and price; and `addToOrder` reads nothing of
the menu item beyond its name and price. -/
theorem lineitem_copied_by_value :
    (∀ (st : ShopState) (n : String) (p : ℚ), (setCatalogPrice st n p).cart = st.cart) ∧
    (∀ (cart : List LineItem) (m : MenuItem),
      cart.find? (fun i => i.name == m.name) = none →
      addToOrder cart m = cart ++ [{ name := m.name, qty := 1, price := m.price }]) ∧
    (∀ (cart : List LineItem) (m₁ m₂ : MenuItem), m₁.name = m₂.name → m₁.price = m₂.price →
      addToOrder cart m₁ = addToOrder cart m₂) := by
  refine ⟨fun st n p => rfl, ?_, ?_⟩
  · intro cart m hfind
    unfold addToOrder
    rw [hfind]
  · intro cart m₁ m₂ hn hp
    unfold addToOrder
    rw [hn, hp]

/-- Witness for C9: doubling Coffee's catalog price leaves the cart intact,
and a fresh add copies name/price by value. -/
theorem lineitem_copied_by_value_witness :
    (setCatalogPrice ⟨[coffeeMenu], [coffeeLine]⟩ "Coffee" 3000).cart = [coffeeLine] ∧
    addToOrder [] coffeeMenu = [] ++ [{ name := coffeeMenu.name, qty := 1, price := coffeeMenu.price }] := by
  constructor
  · exact lineitem_copied_by_value.1 ⟨[coffeeMenu], [coffeeLine]⟩ "Coffee" 3000
  · exact lineitem_copied_by_value.2.1 [] coffeeMenu rfl

/-! ## Charge equations and the PCI boundary invariant (C1, C6) -/

theorem charge_eq_validation {st : PosState} {oid : Nat} {tip : ℚ}
    {gwResp : Option RawGatewayResponse} (htip : tip < 0) :
    charge st oid tip gwResp = (.error .ValidationError, st) := by
  unfold charge
  rw [if_pos htip]

theorem charge_eq_notfound {st : PosState} {oid : Nat} {tip : ℚ}
    {gwResp : Option RawGatewayResponse} (htip : ¬tip < 0)
    (hfind : st.orders.find? (fun o => o.id == oid) = none) :
    charge st oid tip gwResp = (.error .NotFoundError, st) := by
  unfold charge
  rw [if_neg htip, hfind]

theorem charge_eq_timeout {st : PosState} {oid : Nat} {tip : ℚ} {o : Order}
    (htip : ¬tip < 0) (hfind : st.orders.find? (fun x => x.id == oid) = some o) :
    charge st oid tip none =
      (.ok { order_id := oid, status := .error, auth_code := ""
             masked_card := "xxxx", terminal_ref := "SYNTH-REF"
             amount_charged := subtotal o.line_items + tip, tip := tip },
       { st with
         txns := { order_id := oid, status := .error, auth_code := ""
                   masked_card := "xxxx", terminal_ref := "SYNTH-REF"
                   amount_charged := subtotal o.line_items + tip, tip := tip } :: st.txns
         gatewayLog := (subtotal o.line_items + tip,
           mkReference oid (st.txns.filter (fun t => t.order_id == oid)).length) ::
             st.gatewayLog }) := by
  unfold charge
  rw [if_neg htip, hfind]

theorem charge_eq_found {st : PosState} {oid : Nat} {tip : ℚ} {o : Order}
    (raw : RawGatewayResponse)
    (htip : ¬tip < 0) (hfind : st.orders.find? (fun x => x.id == oid) = some o) :
    charge st oid tip (some raw) =
      (.ok (translateResponse oid (subtotal o.line_items + tip) tip raw),
       { st with
         txns := translateResponse oid (subtotal o.line_items + tip) tip raw :: st.txns
         gatewayLog := (subtotal o.line_items + tip,
           mkReference oid (st.txns.filter (fun t => t.order_id == oid)).length) ::
             st.gatewayLog }) := by
  unfold charge
  rw [if_neg htip, hfind]

theorem length_last4 (s : String) : (last4 s).length = 4 := by
  have hmk : ∀ cs : List Char, (String.mk cs).length = cs.length := fun cs => rfl
  simp only [last4]
  rw [hmk, List.length_append, List.length_replicate, List.length_drop]
  omega

theorem maxDigitRunAux_le (cs : List Char) :
    ∀ cur best : Nat, maxDigitRunAux cs cur best ≤ max (cur + cs.length) best := by
  induction cs with
  | nil => intro cur best; simp [maxDigitRunAux]
  | cons c cs ih =>
    intro cur best
    unfold maxDigitRunAux
    split
    · calc maxDigitRunAux cs (cur + 1) best ≤ max (cur + 1 + cs.length) best := ih _ _
        _ = max (cur + (c :: cs).length) best := by
            rw [List.length_cons, Nat.add_assoc, Nat.add_comm 1]
    · calc maxDigitRunAux cs 0 (max cur best) ≤ max (0 + cs.length) (max cur best) := ih _ _
        _ ≤ max (cur + (c :: cs).length) best := by
            rw [List.length_cons, Nat.zero_add]
            apply max_le
            · exact le_max_of_le_left (by omega)
            · apply max_le
              · exact le_max_of_le_left (by omega)
              · exact le_max_right _ _

theorem maxDigitRun_le (s : String) : maxDigitRun s ≤ s.length := by
  have hlen : s.toList.length = s.length := rfl
  calc maxDigitRun s ≤ max (0 + s.toList.length) 0 := maxDigitRunAux_le s.toList 0 0
    _ = s.length := by rw [Nat.zero_add, Nat.max_zero, hlen]

theorem hasPanRun_of_length_lt {s : String} (h : s.length < 13) : hasPanRun s = false := by
  unfold hasPanRun
  rw [decide_eq_false_iff_not]
  have := maxDigitRun_le s
  omega

theorem hasPanRun_last4 (s : String) : hasPanRun (last4 s) = false :=
  hasPanRun_of_length_lt (by rw [length_last4]; omega)

theorem createOrder_txns (st : PosState) (table : String) (items : List LineItem) :
    (createOrder st table items).2.txns = st.txns := by
  unfold createOrder
  split <;> rfl

theorem charge_preserves_safety {st : PosState} {oid : Nat} {tip : ℚ}
    {gwResp : Option RawGatewayResponse}
    (hgw : ∀ raw, gwResp = some raw → gwSafe raw)
    (ih : ∀ t ∈ st.txns, t.masked_card.length = 4 ∧ hasPanRun t.auth_code = false ∧
      hasPanRun t.masked_card = false ∧ hasPanRun t.terminal_ref = false) :
    ∀ t ∈ (charge st oid tip gwResp).2.txns,
      t.masked_card.length = 4 ∧ hasPanRun t.auth_code = false ∧
      hasPanRun t.masked_card = false ∧ hasPanRun t.terminal_ref = false := by
  intro t ht
  by_cases htip : tip < 0
  · rw [charge_eq_validation htip] at ht
    exact ih t ht
  · cases hfind : st.orders.find? (fun o => o.id == oid) with
    | none =>
      rw [charge_eq_notfound htip hfind] at ht
      exact ih t ht
    | some o =>
      cases gwResp with
      | none =>
        rw [charge_eq_timeout htip hfind] at ht
        simp only [List.mem_cons] at ht
        rcases ht with rfl | hmem
        · exact ⟨rfl, (by decide : hasPanRun "" = false),
            (by decide : hasPanRun "xxxx" = false),
            (by decide : hasPanRun "SYNTH-REF" = false)⟩
        · exact ih t hmem
      | some raw =>
        rw [charge_eq_found raw htip hfind] at ht
        simp only [List.mem_cons] at ht
        rcases ht with rfl | hmem
        · exact ⟨length_last4 _, (hgw raw rfl).1, hasPanRun_last4 _, (hgw raw rfl).2⟩
        · exact ih t hmem

/-- C1: in every backend state reachable against a PCI-safe gateway, every
persisted transaction has a `masked_card` of exactly 4 characters, and no
string field of the transaction contains a 13-or-more digit sequence (the
shape of a full PAN); the `Transaction` type has no CVV or expiry field at
all. -/
theorem transaction_pci_boundary :
    ∀ st : PosState, Reachable st →
      ∀ t ∈ st.txns, t.masked_card.length = 4 ∧ hasPanRun t.auth_code = false ∧
        hasPanRun t.masked_card = false ∧ hasPanRun t.terminal_ref = false := by
  intro st h
  induction h with
  | init => intro t ht; simp [initState] at ht
  | createStep st table items _ ih =>
    intro t ht
    rw [createOrder_txns] at ht
    exact ih t ht
  | chargeStep st oid tip gwResp _ hgw ih =>
    exact charge_preserves_safety hgw ih

/-- Witness for C1: charging the scenario order with an approving PCI-safe
gateway yields a persisted transaction satisfying the boundary property. -/
theorem transaction_pci_boundary_witness :
    (translateResponse 0 (subtotal [coffeeLine] + 300) 300 rawApprove).masked_card.length = 4 ∧
    hasPanRun (translateResponse 0 (subtotal [coffeeLine] + 300) 300 rawApprove).auth_code = false ∧
    hasPanRun (translateResponse 0 (subtotal [coffeeLine] + 300) 300 rawApprove).masked_card = false ∧
    hasPanRun (translateResponse 0 (subtotal [coffeeLine] + 300) 300 rawApprove).terminal_ref = false := by
  have hfind : stScenario.orders.find? (fun x => x.id == 0) =
      some { id := 0, table_label := "Mesa 1", line_items := [coffeeLine] } := by
    have horders : stScenario.orders =
        [{ id := 0, table_label := "Mesa 1", line_items := [coffeeLine] }] := by
      simp [stScenario, createOrder, initState, validItems, coffeeLine]
    rw [horders]
    rfl
  have hreach : Reachable (charge stScenario 0 300 (some rawApprove)).2 := by
    refine Reachable.chargeStep stScenario 0 300 (some rawApprove) ?_ ?_
    · exact Reachable.createStep initState "Mesa 1" [coffeeLine] Reachable.init
    · intro raw hr
      cases hr
      exact ⟨by decide, by decide⟩
  refine transaction_pci_boundary _ hreach _ ?_
  rw [charge_eq_found rawApprove (by norm_num) hfind]
  exact List.mem_cons_self _ _

/-- C6: when the gateway declines a charge on an existing order, the call
returns (and appends) a transaction with status `declined`, the Order Store
is untouched, the order's derived payment state stays `unpaid`, and a
subsequent `charge` on the same order is accepted — with an approving
gateway it yields an approved transaction. -/
theorem decline_recorded_retry_allowed :
    ∀ (st : PosState) (oid : Nat) (tip : ℚ) (raw : RawGatewayResponse) (o : Order),
      0 ≤ tip → st.orders.find? (fun x => x.id == oid) = some o →
      parseStatus raw.status = .declined →
      (charge st oid tip (some raw)).1 =
          .ok (translateResponse oid (subtotal o.line_items + tip) tip raw) ∧
      (translateResponse oid (subtotal o.line_items + tip) tip raw).status = .declined ∧
      (charge st oid tip (some raw)).2.txns =
          translateResponse oid (subtotal o.line_items + tip) tip raw :: st.txns ∧
      (charge st oid tip (some raw)).2.orders = st.orders ∧
      (paid st oid = false → paid (charge st oid tip (some raw)).2 oid = false) ∧
      (∀ (tip2 : ℚ) (raw2 : RawGatewayResponse), 0 ≤ tip2 →
        parseStatus raw2.status = .approved →
        ∃ t2, (charge (charge st oid tip (some raw)).2 oid tip2 (some raw2)).1 = .ok t2 ∧
          t2.status = .approved) := by
  intro st oid tip raw o htip hfind hdecl
  have hch := charge_eq_found raw (not_lt.mpr htip) hfind
  refine ⟨by rw [hch], ?_, by rw [hch], by rw [hch], ?_, ?_⟩
  · simp only [translateResponse, hdecl]
  · intro hunpaid
    rw [hch]
    unfold paid at hunpaid ⊢
    simp only [List.any_cons, translateResponse, hdecl]
    simp [hunpaid, (by decide : (TxStatus.declined == TxStatus.approved) = false)]
  · intro tip2 raw2 htip2 happr
    have hfind2 : (charge st oid tip (some raw)).2.orders.find? (fun x => x.id == oid)
        = some o := by rw [hch]; exact hfind
    have hch2 := charge_eq_found raw2 (not_lt.mpr htip2) hfind2
    refine ⟨translateResponse oid (subtotal o.line_items + tip2) tip2 raw2, by rw [hch2], ?_⟩
    simp only [translateResponse, happr]

/-- Witness for C6: the scenario order declined once, then approved. -/
theorem decline_recorded_retry_allowed_witness :
    (charge stScenario 0 0 (some rawDecline)).2.txns =
        translateResponse 0 (subtotal [coffeeLine] + 0) 0 rawDecline :: stScenario.txns ∧
    (∃ t2, (charge (charge stScenario 0 0 (some rawDecline)).2 0 0 (some rawApprove)).1 =
        .ok t2 ∧ t2.status = .approved) := by
  have hfind : stScenario.orders.find? (fun x => x.id == 0) =
      some { id := 0, table_label := "Mesa 1", line_items := [coffeeLine] } := by
    have horders : stScenario.orders =
        [{ id := 0, table_label := "Mesa 1", line_items := [coffeeLine] }] := by
      simp [stScenario, createOrder, initState, validItems, coffeeLine]
    rw [horders]
    rfl
  have h := decline_recorded_retry_allowed stScenario 0 0 rawDecline
    { id := 0, table_label := "Mesa 1", line_items := [coffeeLine] }
    le_rfl hfind (by decide)
  exact ⟨h.2.2.1, h.2.2.2.2.2 0 rawApprove le_rfl (by decide)⟩

end Pos
